import Mathlib

/-!
# Verification of the nova-ecs-editor metadata-registration layer

A shallow embedding of the repository's component-metadata system:

* `src/decorators/component.ts` — the metadata store (two weak maps plus an
  enumerable set of declared types) and the `@component` / `@property`
  decorators that populate it;
* `src/plugins/EditorComponentPlugin.ts` — the `EditorComponentRegistry`
  (registration map, queries, statistics);
* `src/utils/ComponentUtils.ts` — derived query helpers (availability
  listing, grouping by category, can-add / can-remove predicates).

JavaScript `Map`s are modelled as association lists with in-place overwrite
(preserving first-insertion key order, as `Map.set` does); `Set` as a list
with membership-checked append; plain `Record` objects as association lists
with in-place update.  `Array.prototype.sort` with the numeric comparator
`(a, b) => keyA - keyB` is a stable ascending sort and is modelled by a
stable key-based insertion sort.  JavaScript truthiness on the optional
string/number fields is modelled explicitly: `s || d` on an optional string
is `d` exactly when the string is absent or empty, and `n || 999` on an
optional number is `999` exactly when the number is absent or zero.
Numbers that the claims touch (the `order` field) are modelled as `Int`.
-/

/-! ## Generic JavaScript collection models -/

/-- `Map.get`: first association for the key, if any. -/
def mapGet {κ ν : Type} [DecidableEq κ] (k : κ) : List (κ × ν) → Option ν
  | [] => none
  | (k', v) :: rest => if k' = k then some v else mapGet k rest

/-- `Map.set`: overwrite in place if the key is present (keeping its
original position, as JavaScript `Map` does), otherwise append. -/
def mapSet {κ ν : Type} [DecidableEq κ] (k : κ) (v : ν) : List (κ × ν) → List (κ × ν)
  | [] => [(k, v)]
  | (k', v') :: rest => if k' = k then (k, v) :: rest else (k', v') :: mapSet k v rest

/-- `Set.add`: append unless already present (first insertion wins). -/
def setAdd {κ : Type} [DecidableEq κ] (k : κ) (s : List κ) : List κ :=
  if k ∈ s then s else s ++ [k]

/-- Read a key of a plain `Record` object. -/
def recordGet {ν : Type} (k : String) : List (String × ν) → Option ν
  | [] => none
  | (k', v) :: rest => if k' = k then some v else recordGet k rest

/-- `grouped[key].push(x)` with lazy `grouped[key] = []` initialisation:
append `x` to the key's list in place, creating the entry at the end when
the key is new. -/
def recordPush {α : Type} (k : String) (x : α) :
    List (String × List α) → List (String × List α)
  | [] => [(k, [x])]
  | (k', xs) :: rest =>
      if k' = k then (k', xs ++ [x]) :: rest else (k', xs) :: recordPush k x rest

/-- `categories[c] = (categories[c] || 0) + 1`: increment in place, creating
the entry at the end when the key is new. -/
def recordIncr (k : String) : List (String × Nat) → List (String × Nat)
  | [] => [(k, 1)]
  | (k', n) :: rest =>
      if k' = k then (k', n + 1) :: rest else (k', n) :: recordIncr k rest

/-- One step of the stable ascending sort: insert `a` before the first
element whose key is not smaller.  Placing `a` in front of key-equal
elements it is about to precede is what makes the overall sort stable. -/
def orderedInsertKey {α : Type} (key : α → Int) (a : α) : List α → List α
  | [] => [a]
  | b :: l => if key a ≤ key b then a :: b :: l else b :: orderedInsertKey key a l

/-- Model of `Array.prototype.sort((x, y) => key x - key y)`: a stable
ascending sort by the integer key (ECMAScript requires sort stability). -/
def insertionSortKey {α : Type} (key : α → Int) : List α → List α
  | [] => []
  | a :: l => orderedInsertKey key a (insertionSortKey key l)

/-- JavaScript `x || d` on an optional string: the string when it is
present and non-empty (truthy), else the default. -/
def stringOrDefault (d : String) : Option String → String
  | none => d
  | some s => if s = "" then d else s

/-- JavaScript `n || 999` on an optional number: the number when it is
present and non-zero (truthy), else `999`. -/
def orderOr999 : Option Int → Int
  | none => 999
  | some n => if n = 0 then 999 else n

/-! ## Data model (`src/decorators/component.ts`) -/

/-- The `type` discriminator of `PropertyMetadata`. -/
inductive PropertyType : Type
  | string | number | boolean | vector2 | vector3 | color | range | enum
deriving DecidableEq, Repr

/-- `PropertyMetadata`: per-field UI hints. -/
structure PropertyMetadata : Type where
  displayName : Option String := none
  description : Option String := none
  type : PropertyType
  readonly : Option Bool := none
  min : Option Int := none
  max : Option Int := none
  step : Option Int := none
  options : Option (List String) := none
  category : Option String := none
  order : Option Int := none
deriving DecidableEq, Repr

/-- `ComponentMetadata`: component-level editor description. -/
structure ComponentMetadata : Type where
  displayName : String
  description : Option String := none
  icon : Option String := none
  category : Option String := none
  removable : Option Bool := none
  addable : Option Bool := none
  order : Option Int := none
deriving DecidableEq, Repr

/-- Component type identity (`ComponentType` is used only as a reference
identity and a map key). -/
abbrev ComponentType : Type := Nat

/-- The module-level mutable state of `src/decorators/component.ts`:
`componentMetadataMap`, `propertyMetadataMap` (the two `WeakMap`s) and
`globalComponentRegistry` (the enumerable `Set`). -/
structure MetadataStore : Type where
  componentMetadataMap : List (ComponentType × ComponentMetadata) := []
  propertyMetadataMap : List (ComponentType × List (String × PropertyMetadata)) := []
  globalComponentRegistry : List ComponentType := []
deriving DecidableEq, Repr

/-- Argument type of the `@component` decorator:
`Partial<ComponentMetadata> & \x7b displayName: string \x7d`. -/
structure ComponentOptions : Type where
  displayName : String
  description : Option String := none
  icon : Option String := none
  category : Option String := none
  removable : Option Bool := none
  addable : Option Bool := none
  order : Option Int := none
deriving DecidableEq, Repr

/-- The `ComponentMetadata` literal built inside `componentDecorator`:
`removable` and `addable` become `options.x !== false` (default `true`),
every other field is copied verbatim. -/
def decoratorMetadata (options : ComponentOptions) : ComponentMetadata :=
  { displayName := options.displayName
    description := options.description
    icon := options.icon
    category := options.category
    removable := some (options.removable ≠ some false)
    addable := some (options.addable ≠ some false)
    order := options.order }

/-- `componentDecorator(options)(target)`: store the built metadata for
`target` and add `target` to the global enumerable registry. -/
def componentDecorator (options : ComponentOptions) (target : ComponentType)
    (st : MetadataStore) : MetadataStore :=
  { st with
    componentMetadataMap := mapSet target (decoratorMetadata options) st.componentMetadataMap
    globalComponentRegistry := setAdd target st.globalComponentRegistry }

/-- `property(options)` applied to field `propertyKey` of `componentType`:
lazily create the per-type map, then insert/overwrite the field's entry. -/
def propertyDecorator (options : PropertyMetadata) (componentType : ComponentType)
    (propertyKey : String) (st : MetadataStore) : MetadataStore :=
  let propertyMap := (mapGet componentType st.propertyMetadataMap).getD []
  { st with
    propertyMetadataMap :=
      mapSet componentType (mapSet propertyKey options propertyMap) st.propertyMetadataMap }

/-- `getComponentMetadata`. -/
def getComponentMetadata (st : MetadataStore) (componentType : ComponentType) :
    Option ComponentMetadata :=
  mapGet componentType st.componentMetadataMap

/-- `getAllPropertyMetadata`: the stored map, or a fresh empty map. -/
def getAllPropertyMetadata (st : MetadataStore) (componentType : ComponentType) :
    List (String × PropertyMetadata) :=
  (mapGet componentType st.propertyMetadataMap).getD []

/-- `getPropertyMetadata`. -/
def getPropertyMetadata (st : MetadataStore) (componentType : ComponentType)
    (propertyName : String) : Option PropertyMetadata :=
  (mapGet componentType st.propertyMetadataMap).bind (mapGet propertyName)

/-- `hasComponentMetadata`. -/
def hasComponentMetadata (st : MetadataStore) (componentType : ComponentType) : Bool :=
  (mapGet componentType st.componentMetadataMap).isSome

/-- `getAllRegisteredComponentTypes`: contents of the enumerable set. -/
def getAllRegisteredComponentTypes (st : MetadataStore) : List ComponentType :=
  st.globalComponentRegistry

/-- `clearAllMetadata`: clears only the enumerable set; the `WeakMap`s are
not (and cannot be) cleared. -/
def clearAllMetadata (st : MetadataStore) : MetadataStore :=
  { st with globalComponentRegistry := [] }

/-! ## Component registry (`src/plugins/EditorComponentPlugin.ts`) -/

/-- `ComponentRegistration`: the consolidated unit stored by the registry. -/
structure ComponentRegistration : Type where
  componentType : ComponentType
  metadata : ComponentMetadata
  properties : List (String × PropertyMetadata)
deriving DecidableEq, Repr

/-- `EditorComponentRegistry`: the `registrations` map (keyed by component
type, insertion ordered). -/
structure EditorComponentRegistry : Type where
  registrations : List (ComponentType × ComponentRegistration) := []
deriving DecidableEq, Repr

/-- Result record of `EditorComponentRegistry.getStatistics`. -/
structure RegistryStatistics : Type where
  totalComponents : Nat
  addableComponents : Nat
  categorizedComponents : List (String × Nat)
deriving DecidableEq, Repr

namespace EditorComponentRegistry

/-- `register(componentType)`: read the component metadata and property map
from the decorator store; when metadata exists, store the consolidated
registration (replacing any prior one for the same type); otherwise do
nothing.  The `console.log` side effect carries no state. -/
def register (self : EditorComponentRegistry) (st : MetadataStore)
    (componentType : ComponentType) : EditorComponentRegistry :=
  let metadata := getComponentMetadata st componentType
  let properties := getAllPropertyMetadata st componentType
  match metadata with
  | some m =>
      ⟨mapSet componentType
        { componentType := componentType, metadata := m, properties := properties }
        self.registrations⟩
  | none => self

/-- `get(componentType)`. -/
def get (self : EditorComponentRegistry) (componentType : ComponentType) :
    Option ComponentRegistration :=
  mapGet componentType self.registrations

/-- `has(componentType)`. -/
def has (self : EditorComponentRegistry) (componentType : ComponentType) : Bool :=
  (mapGet componentType self.registrations).isSome

/-- `getAll()`: the stored registrations in map insertion order. -/
def getAll (self : EditorComponentRegistry) : List ComponentRegistration :=
  self.registrations.map Prod.snd

/-- `getAddable()`: `getAll().filter(reg => reg.metadata.addable !== false)`. -/
def getAddable (self : EditorComponentRegistry) : List ComponentRegistration :=
  self.getAll.filter fun reg => reg.metadata.addable ≠ some false

/-- `getByCategory(category)`:
`getAll().filter(reg => reg.metadata.category === category)`. -/
def getByCategory (self : EditorComponentRegistry) (category : String) :
    List ComponentRegistration :=
  self.getAll.filter fun reg => reg.metadata.category = some category

/-- `clear()`. -/
def clear (_self : EditorComponentRegistry) : EditorComponentRegistry := ⟨[]⟩

/-- One iteration of the `getStatistics` loop body over the pair
(category tally, addable count). -/
def statisticsStep (acc : List (String × Nat) × Nat) (registration : ComponentRegistration) :
    List (String × Nat) × Nat :=
  let addableCount := if registration.metadata.addable ≠ some false then acc.2 + 1 else acc.2
  let categories :=
    match registration.metadata.category with
    | some c => if c = "" then acc.1 else recordIncr c acc.1
    | none => acc.1
  (categories, addableCount)

/-- `getStatistics()`: one pass over the registrations accumulating the
addable count and the per-category tally; a category is tallied only when
it is truthy (present and non-empty). -/
def getStatistics (self : EditorComponentRegistry) : RegistryStatistics :=
  let acc := self.getAll.foldl statisticsStep ([], 0)
  { totalComponents := self.registrations.length
    addableComponents := acc.2
    categorizedComponents := acc.1 }

end EditorComponentRegistry

/-- `discoverAndRegisterComponents()`: register every type in the
enumerable declared-types set, in order. -/
def discoverAndRegisterComponents (self : EditorComponentRegistry)
    (st : MetadataStore) : EditorComponentRegistry :=
  (getAllRegisteredComponentTypes st).foldl (fun reg t => reg.register st t) self

/-! ## Derived query helpers (`src/utils/ComponentUtils.ts`) -/

namespace ComponentUtils

/-- Sort key used by all three helper sorts: `order || 999`. -/
def effectiveOrder (order : Option Int) : Int := orderOr999 order

/-- `getAvailableComponentTypes()`: the addable registrations, paired with
their component types, sorted stably by `order || 999` ascending. -/
def getAvailableComponentTypes (registry : EditorComponentRegistry) :
    List (ComponentType × ComponentRegistration) :=
  insertionSortKey (fun p => effectiveOrder p.2.metadata.order)
    (registry.getAddable.map fun registration => (registration.componentType, registration))

/-- `getComponentRegistration(componentType)`. -/
def getComponentRegistration (registry : EditorComponentRegistry)
    (componentType : ComponentType) : Option ComponentRegistration :=
  registry.get componentType

/-- `isComponentRegistered(componentType)`. -/
def isComponentRegistered (registry : EditorComponentRegistry)
    (componentType : ComponentType) : Bool :=
  registry.has componentType

/-- The grouping pass of `getComponentsByCategory`, before the per-group
sort: key is `metadata.category || 'Uncategorized 未分类'`. -/
def componentGroupsRaw (registry : EditorComponentRegistry) :
    List (String × List ComponentRegistration) :=
  registry.getAll.foldl
    (fun grouped registration =>
      recordPush (stringOrDefault "Uncategorized 未分类" registration.metadata.category)
        registration grouped)
    []

/-- `getComponentsByCategory()`: group all registrations by category
(defaulting to `'Uncategorized 未分类'`), then sort each group stably by
`order || 999`. -/
def getComponentsByCategory (registry : EditorComponentRegistry) :
    List (String × List ComponentRegistration) :=
  (componentGroupsRaw registry).map fun g =>
    (g.1, insertionSortKey (fun r => effectiveOrder r.metadata.order) g.2)

/-- `canRemoveComponent(componentType)`:
`registration?.metadata.removable !== false`. -/
def canRemoveComponent (registry : EditorComponentRegistry)
    (componentType : ComponentType) : Bool :=
  match getComponentRegistration registry componentType with
  | none => true
  | some registration => registration.metadata.removable ≠ some false

/-- `canAddComponent(componentType)`:
`registration?.metadata.addable !== false`. -/
def canAddComponent (registry : EditorComponentRegistry)
    (componentType : ComponentType) : Bool :=
  match getComponentRegistration registry componentType with
  | none => true
  | some registration => registration.metadata.addable ≠ some false

/-- The utils-level `getAllPropertyMetadata(componentType)`: the property
map of the type's registration, or a fresh empty map. -/
def getRegisteredPropertyMetadata (registry : EditorComponentRegistry)
    (componentType : ComponentType) : List (String × PropertyMetadata) :=
  ((getComponentRegistration registry componentType).map
    ComponentRegistration.properties).getD []

/-- The grouping pass of `getPropertiesByCategory`, before the per-group
sort: key is `metadata.category || 'General 通用'`. -/
def propertyGroupsRaw (registry : EditorComponentRegistry)
    (componentType : ComponentType) :
    List (String × List (String × PropertyMetadata)) :=
  (getRegisteredPropertyMetadata registry componentType).foldl
    (fun grouped entry =>
      recordPush (stringOrDefault "General 通用" entry.2.category) entry grouped)
    []

/-- `getPropertiesByCategory(componentType)`: group the registered property
entries by category (defaulting to `'General 通用'`), then sort each group
stably by `order || 999`. -/
def getPropertiesByCategory (registry : EditorComponentRegistry)
    (componentType : ComponentType) :
    List (String × List (String × PropertyMetadata)) :=
  (propertyGroupsRaw registry componentType).map fun g =>
    (g.1, insertionSortKey (fun e => effectiveOrder e.2.order) g.2)

end ComponentUtils

/-! ## Concrete states used by the witnesses and counterexamples

Each store is built by chaining the actual decorator operations, and each
registry by chaining the actual `register` operation, so every concrete
state below is reachable by the program. -/

/-- Store that declares only type 1, used to run C1 on the undeclared
type 0 against a non-empty registry. -/
def exC1store : MetadataStore :=
  componentDecorator { displayName := "Transform" } 1 {}

/-- Registry with type 1 registered, for the C1 witness. -/
def exC1registry : EditorComponentRegistry :=
  EditorComponentRegistry.register ⟨[]⟩ exC1store 1

/-- Store for the C2 witness: type 1 carries metadata and two declared
properties, type 2 carries metadata and no property. -/
def exC2store : MetadataStore :=
  componentDecorator { displayName := "Sprite" } 2
    (propertyDecorator { type := PropertyType.range, min := some 0, max := some 100 } 1 "hp"
      (propertyDecorator { type := PropertyType.boolean } 1 "invincible"
        (componentDecorator { displayName := "Health", category := some "Gameplay" } 1 {})))

/-- Store for C3: two components in category `"Physics"`, declared with
`order` 2 (type 1) and `order` 1 (type 2). -/
def exC3store : MetadataStore :=
  componentDecorator { displayName := "B", category := some "Physics", order := some 1 } 2
    (componentDecorator { displayName := "A", category := some "Physics", order := some 2 } 1 {})

/-- Registry for C3: type 1 (order 2) registered before type 2 (order 1). -/
def exC3registry : EditorComponentRegistry :=
  (EditorComponentRegistry.register ⟨[]⟩ exC3store 1).register exC3store 2

/-- Store for C4: one component with no category and one property with no
category. -/
def exC4store : MetadataStore :=
  propertyDecorator { type := PropertyType.number } 1 "hp"
    (componentDecorator { displayName := "Plain" } 1 {})

/-- Registry for C4. -/
def exC4registry : EditorComponentRegistry :=
  EditorComponentRegistry.register ⟨[]⟩ exC4store 1

/-- The registration the C4 registry stores for type 1. -/
def exC4reg1 : ComponentRegistration :=
  { componentType := 1
    metadata := decoratorMetadata { displayName := "Plain" }
    properties := getAllPropertyMetadata exC4store 1 }

/-- The single property entry declared in the C4 store. -/
def exC4entry : String × PropertyMetadata :=
  ("hp", { type := PropertyType.number })

/-- Store for C5: type 1 declared with no `order`, carrying a property
`"mp"` with no `order` declared before a property `"hp"` with `order` 0;
type 2 declared with explicit `order` 1000. -/
def exC5store : MetadataStore :=
  propertyDecorator { type := PropertyType.number, order := some 0 } 1 "hp"
    (propertyDecorator { type := PropertyType.number } 1 "mp"
      (componentDecorator { displayName := "Q", order := some 1000 } 2
        (componentDecorator { displayName := "P" } 1 {})))

/-- Registry for C5: type 1 registered before type 2. -/
def exC5registry : EditorComponentRegistry :=
  (EditorComponentRegistry.register ⟨[]⟩ exC5store 1).register exC5store 2

/-- The component group the C5 registry places under the default label. -/
def exC5groupC : List ComponentRegistration :=
  (recordGet "Uncategorized 未分类"
    (ComponentUtils.getComponentsByCategory exC5registry)).getD []

/-- The property group of type 1 under the default label, in the C5
registry. -/
def exC5groupP : List (String × PropertyMetadata) :=
  (recordGet "General 通用"
    (ComponentUtils.getPropertiesByCategory exC5registry 1)).getD []

/-- Store for the C6 witness: type 1 declared with `addable` omitted,
type 2 declared with `addable: false`. -/
def exC6store : MetadataStore :=
  componentDecorator { displayName := "Hidden", addable := some false } 2
    (componentDecorator { displayName := "Shown" } 1 {})

/-- Registry for the C6 witness. -/
def exC6registry : EditorComponentRegistry :=
  (EditorComponentRegistry.register ⟨[]⟩ exC6store 1).register exC6store 2

/-- Store for the C7 witness: type 1 declared with both flags omitted,
type 2 declared with `removable: false` and `addable: false`. -/
def exC7store : MetadataStore :=
  componentDecorator
    { displayName := "Locked", removable := some false, addable := some false } 2
    (componentDecorator { displayName := "Free" } 1 {})

/-- Registry for the C7 witness (type 3 stays unregistered). -/
def exC7registry : EditorComponentRegistry :=
  (EditorComponentRegistry.register ⟨[]⟩ exC7store 1).register exC7store 2

/-- The registration the C6 registry stores for type 2 (declared with
`addable: false`). -/
def exC6reg2 : ComponentRegistration :=
  { componentType := 2
    metadata := decoratorMetadata { displayName := "Hidden", addable := some false }
    properties := [] }

/-- The registration the C7 registry stores for type 1 (declared with
both flags omitted). -/
def exC7reg1 : ComponentRegistration :=
  { componentType := 1
    metadata := decoratorMetadata { displayName := "Free" }
    properties := [] }

/-- The registration the C7 registry stores for type 2 (declared with
`removable: false` and `addable: false`). -/
def exC7reg2 : ComponentRegistration :=
  { componentType := 2
    metadata := decoratorMetadata
      { displayName := "Locked", removable := some false, addable := some false }
    properties := [] }

/-- Store for the C8 counterexample: one component declared with the
empty string as its category. -/
def exC8store : MetadataStore :=
  componentDecorator { displayName := "Empty", category := some "" } 1 {}

/-- Registry for the C8 counterexample. -/
def exC8registry : EditorComponentRegistry :=
  EditorComponentRegistry.register ⟨[]⟩ exC8store 1

/-- Store for the C8 witness: two components in category `"Audio"` and
one with no category. -/
def exC8Wstore : MetadataStore :=
  componentDecorator { displayName := "Plain" } 3
    (componentDecorator { displayName := "Listener", category := some "Audio" } 2
      (componentDecorator { displayName := "Source", category := some "Audio" } 1 {}))

/-- Registry for the C8 witness. -/
def exC8Wregistry : EditorComponentRegistry :=
  ((EditorComponentRegistry.register ⟨[]⟩ exC8Wstore 1).register exC8Wstore 2).register
    exC8Wstore 3

/-- Store for the C9 witness: one declared type with one property. -/
def exC9store : MetadataStore :=
  propertyDecorator { type := PropertyType.number } 1 "speed"
    (componentDecorator { displayName := "Movement" } 1 {})

/-! ## Basic lemmas about the collection models -/

theorem mapGet_mapSet_self {κ ν : Type} [DecidableEq κ] (k : κ) (v : ν) :
    ∀ m : List (κ × ν), mapGet k (mapSet k v m) = some v
  | [] => by simp [mapGet, mapSet]
  | (k', v') :: rest => by
    by_cases h : k' = k
    · simp [mapGet, mapSet, h]
    · simp [mapGet, mapSet, h, mapGet_mapSet_self k v rest]

theorem perm_orderedInsertKey {α : Type} (key : α → Int) (a : α) :
    ∀ l : List α, List.Perm (orderedInsertKey key a l) (a :: l)
  | [] => List.Perm.refl _
  | b :: l => by
    by_cases h : key a ≤ key b
    · rw [orderedInsertKey, if_pos h]
    · rw [orderedInsertKey, if_neg h]
      exact ((perm_orderedInsertKey key a l).cons b).trans (List.Perm.swap a b l)

theorem perm_insertionSortKey {α : Type} (key : α → Int) :
    ∀ l : List α, List.Perm (insertionSortKey key l) l
  | [] => List.Perm.nil
  | a :: l => by
    rw [insertionSortKey]
    exact (perm_orderedInsertKey key a _).trans ((perm_insertionSortKey key l).cons a)

theorem pairwise_orderedInsertKey {α : Type} (key : α → Int) (a : α) :
    ∀ l : List α, List.Pairwise (fun x y => key x ≤ key y) l →
      List.Pairwise (fun x y => key x ≤ key y) (orderedInsertKey key a l)
  | [], _ => by simp [orderedInsertKey]
  | b :: l, h => by
    rcases List.pairwise_cons.mp h with ⟨hb, hl⟩
    by_cases hab : key a ≤ key b
    · rw [orderedInsertKey, if_pos hab]
      refine List.pairwise_cons.mpr ⟨?_, h⟩
      intro y hy
      rcases List.mem_cons.mp hy with rfl | hy
      · exact hab
      · exact le_trans hab (hb y hy)
    · rw [orderedInsertKey, if_neg hab]
      refine List.pairwise_cons.mpr ⟨?_, pairwise_orderedInsertKey key a l hl⟩
      intro y hy
      have hy' := (perm_orderedInsertKey key a l).mem_iff.mp hy
      rcases List.mem_cons.mp hy' with rfl | hy'
      · exact le_of_lt (lt_of_not_le hab)
      · exact hb y hy'

theorem pairwise_insertionSortKey {α : Type} (key : α → Int) :
    ∀ l : List α, List.Pairwise (fun x y => key x ≤ key y) (insertionSortKey key l)
  | [] => List.Pairwise.nil
  | a :: l =>
    pairwise_orderedInsertKey key a _ (pairwise_insertionSortKey key l)

theorem filter_orderedInsertKey_self {α : Type} (key : α → Int) (a : α) (k : Int)
    (ha : key a = k) :
    ∀ l : List α, (orderedInsertKey key a l).filter (fun x => key x == k) =
      a :: l.filter (fun x => key x == k)
  | [] => by simp [orderedInsertKey, ha]
  | b :: l => by
    by_cases hab : key a ≤ key b
    · rw [orderedInsertKey, if_pos hab]
      simp [List.filter_cons, ha]
    · have hbk : ¬ key b = k := by
        intro hbk
        exact hab (le_of_eq (ha.trans hbk.symm))
      rw [orderedInsertKey, if_neg hab]
      simp [List.filter_cons, hbk, filter_orderedInsertKey_self key a k ha l]

theorem filter_orderedInsertKey_ne {α : Type} (key : α → Int) (a : α) (k : Int)
    (ha : key a ≠ k) :
    ∀ l : List α, (orderedInsertKey key a l).filter (fun x => key x == k) =
      l.filter (fun x => key x == k)
  | [] => by simp [orderedInsertKey, ha]
  | b :: l => by
    by_cases hab : key a ≤ key b
    · rw [orderedInsertKey, if_pos hab]
      simp [List.filter_cons, ha]
    · rw [orderedInsertKey, if_neg hab]
      simp [List.filter_cons, filter_orderedInsertKey_ne key a k ha l]

/-- Stability of the modelled sort: for every key value, the key's entries
come out in exactly their input order. -/
theorem filter_insertionSortKey {α : Type} (key : α → Int) (k : Int) :
    ∀ l : List α, (insertionSortKey key l).filter (fun x => key x == k) =
      l.filter (fun x => key x == k)
  | [] => rfl
  | a :: l => by
    by_cases ha : key a = k
    · rw [insertionSortKey, filter_orderedInsertKey_self key a k ha,
        filter_insertionSortKey key k l]
      simp [List.filter_cons, ha]
    · rw [insertionSortKey, filter_orderedInsertKey_ne key a k ha,
        filter_insertionSortKey key k l]
      simp [List.filter_cons, ha]

theorem recordGet_recordPush_self {α : Type} (k : String) (x : α) :
    ∀ g : List (String × List α),
      recordGet k (recordPush k x g) = some ((recordGet k g).getD [] ++ [x])
  | [] => by simp [recordGet, recordPush]
  | (k', xs) :: rest => by
    by_cases h : k' = k
    · simp [recordGet, recordPush, h]
    · simp [recordGet, recordPush, h, recordGet_recordPush_self k x rest]

theorem recordGet_recordPush_ne {α : Type} (k k' : String) (x : α) (h : k' ≠ k) :
    ∀ g : List (String × List α), recordGet k (recordPush k' x g) = recordGet k g
  | [] => by simp [recordGet, recordPush, h]
  | (k'', xs) :: rest => by
    by_cases h' : k'' = k'
    · subst h'
      simp [recordGet, recordPush, h]
    · by_cases h'' : k'' = k
      · simp [recordGet, recordPush, h', h'', Ne.symm h]
      · simp [recordGet, recordPush, h', h'', recordGet_recordPush_ne k k' x h rest]

/-- Growing a grouped record never loses a group member. -/
theorem mem_recordGet_foldl_push_of_mem {α : Type} (keyOf : α → String) (x : α) (k : String) :
    ∀ (l : List α) (g : List (String × List α)),
      x ∈ (recordGet k g).getD [] →
      x ∈ (recordGet k (l.foldl (fun g y => recordPush (keyOf y) y g) g)).getD []
  | [], _, hx => hx
  | y :: l, g, hx => by
    rw [List.foldl_cons]
    refine mem_recordGet_foldl_push_of_mem keyOf x k l _ ?_
    by_cases h : keyOf y = k
    · rw [← h] at hx ⊢
      rw [recordGet_recordPush_self]
      exact List.mem_append_left _ hx
    · rw [recordGet_recordPush_ne k (keyOf y) y h]
      exact hx

/-- Every element of the grouped source ends up in its key's group. -/
theorem mem_recordGet_foldl_push {α : Type} (keyOf : α → String) (x : α) :
    ∀ (l : List α) (g : List (String × List α)), x ∈ l →
      x ∈ (recordGet (keyOf x) (l.foldl (fun g y => recordPush (keyOf y) y g) g)).getD []
  | y :: l, g, hx => by
    rw [List.foldl_cons]
    rcases List.mem_cons.mp hx with rfl | hx
    · refine mem_recordGet_foldl_push_of_mem keyOf x (keyOf x) l _ ?_
      rw [recordGet_recordPush_self]
      exact List.mem_append_right _ (List.mem_singleton.mpr rfl)
    · exact mem_recordGet_foldl_push keyOf x l _ hx

theorem recordGet_map {α β : Type} (f : α → β) (k : String) :
    ∀ g : List (String × α),
      recordGet k (g.map fun p => (p.1, f p.2)) = (recordGet k g).map f
  | [] => rfl
  | (k', v) :: rest => by
    by_cases h : k' = k
    · simp [recordGet, h]
    · simp [recordGet, h, recordGet_map f k rest]

theorem recordGet_recordIncr_self (k : String) :
    ∀ g : List (String × Nat),
      recordGet k (recordIncr k g) = some ((recordGet k g).getD 0 + 1)
  | [] => by simp [recordGet, recordIncr]
  | (k', n) :: rest => by
    by_cases h : k' = k
    · simp [recordGet, recordIncr, h]
    · simp [recordGet, recordIncr, h, recordGet_recordIncr_self k rest]

theorem recordGet_recordIncr_ne (k k' : String) (h : k' ≠ k) :
    ∀ g : List (String × Nat), recordGet k (recordIncr k' g) = recordGet k g
  | [] => by simp [recordGet, recordIncr, h]
  | (k'', n) :: rest => by
    by_cases h' : k'' = k'
    · subst h'
      simp [recordGet, recordIncr, h]
    · by_cases h'' : k'' = k
      · simp [recordGet, recordIncr, h', h'', Ne.symm h]
      · simp [recordGet, recordIncr, h', h'', recordGet_recordIncr_ne k k' h rest]

/-! ## Lemmas about the statistics loop -/

/-- The addable counter of the statistics loop counts exactly the
registrations whose `addable` is not strictly `false`. -/
theorem statistics_foldl_snd :
    ∀ (l : List ComponentRegistration) (g : List (String × Nat)) (n : Nat),
      (l.foldl EditorComponentRegistry.statisticsStep (g, n)).2 =
        n + l.countP (fun r => decide (r.metadata.addable ≠ some false))
  | [], _, _ => by simp
  | r :: l, g, n => by
    rw [List.foldl_cons, List.countP_cons]
    by_cases h : r.metadata.addable ≠ some false
    · rw [statistics_foldl_snd l _ _]
      simp [EditorComponentRegistry.statisticsStep, h]
      omega
    · rw [statistics_foldl_snd l _ _]
      simp [EditorComponentRegistry.statisticsStep, h]

/-- The category tally of the statistics loop, read at a non-empty
category, counts exactly the registrations carrying that category. -/
theorem statistics_foldl_get (c : String) (hc : c ≠ "") :
    ∀ (l : List ComponentRegistration) (g : List (String × Nat)) (n : Nat),
      (recordGet c (l.foldl EditorComponentRegistry.statisticsStep (g, n)).1).getD 0 =
        (recordGet c g).getD 0 + l.countP (fun r => r.metadata.category == some c)
  | [], _, _ => by simp
  | r :: l, g, n => by
    rw [List.foldl_cons, List.countP_cons, statistics_foldl_get c hc l _ _]
    rcases hcat : r.metadata.category with _ | c'
    · simp [EditorComponentRegistry.statisticsStep, hcat]
    · by_cases he : c' = ""
      · subst he
        have : ¬ ((none : Option String) = some c ∨ some "" = some c) := by
          simp
          exact fun h => hc h.symm
        simp [EditorComponentRegistry.statisticsStep, hcat, Ne.symm hc]
      · by_cases hcc : c' = c
        · subst hcc
          simp [EditorComponentRegistry.statisticsStep, hcat, he,
            recordGet_recordIncr_self]
          omega
        · simp [EditorComponentRegistry.statisticsStep, hcat, he, hcc,
            recordGet_recordIncr_ne c c' hcc]

/-- The statistics loop never creates an entry for the empty-string
category (a falsy category is skipped). -/
theorem statistics_foldl_get_empty :
    ∀ (l : List ComponentRegistration) (g : List (String × Nat)) (n : Nat),
      recordGet "" (l.foldl EditorComponentRegistry.statisticsStep (g, n)).1 =
        recordGet "" g
  | [], _, _ => rfl
  | r :: l, g, n => by
    rw [List.foldl_cons, statistics_foldl_get_empty l _ _]
    rcases hcat : r.metadata.category with _ | c'
    · simp [EditorComponentRegistry.statisticsStep, hcat]
    · by_cases he : c' = ""
      · simp [EditorComponentRegistry.statisticsStep, hcat, he]
      · simp [EditorComponentRegistry.statisticsStep, hcat, he,
          recordGet_recordIncr_ne "" c' he]

/-! ## Claim C1: registering a type with no metadata is a no-op -/

/-- C1: for a component type with no `ComponentMetadata` in the metadata
store, `register` creates no Registration, leaves the stored registrations
unchanged, and `has` stays `false`. -/
theorem c1_register_unknown_type_noop (st : MetadataStore)
    (registry : EditorComponentRegistry) (t : ComponentType)
    (h : getComponentMetadata st t = none) (h0 : registry.has t = false) :
    registry.register st t = registry ∧ (registry.register st t).has t = false := by
  refine ⟨?_, ?_⟩
  · simp [EditorComponentRegistry.register, h]
  · simp [EditorComponentRegistry.register, h, h0]

theorem c1_register_unknown_type_noop_witness :
    getComponentMetadata exC1store 0 = none ∧ exC1registry.has 0 = false ∧
      (exC1registry.register exC1store 0 = exC1registry ∧
        (exC1registry.register exC1store 0).has 0 = false) :=
  ⟨by decide, by decide,
    c1_register_unknown_type_noop exC1store exC1registry 0 (by decide) (by decide)⟩

/-! ## Claim C2: registering a type with metadata consolidates everything -/

/-- C2: for a component type with stored `ComponentMetadata`, after
`register` the lookup returns a Registration carrying that type, the
stored descriptor, and exactly the property map held by the metadata
store at registration time (which is empty when no property was ever
declared on the type). -/
theorem c2_register_builds_full_registration (st : MetadataStore)
    (registry : EditorComponentRegistry) (t : ComponentType) (m : ComponentMetadata)
    (h : getComponentMetadata st t = some m) :
    (registry.register st t).get t =
        some { componentType := t, metadata := m,
               properties := getAllPropertyMetadata st t } ∧
      (mapGet t st.propertyMetadataMap = none → getAllPropertyMetadata st t = []) := by
  refine ⟨?_, ?_⟩
  · simp [EditorComponentRegistry.register, h, EditorComponentRegistry.get,
      mapGet_mapSet_self]
  · intro h'
    simp [getAllPropertyMetadata, h']

theorem c2_register_builds_full_registration_witness :
    getComponentMetadata exC2store 1 =
        some (decoratorMetadata { displayName := "Health", category := some "Gameplay" }) ∧
      (EditorComponentRegistry.register ⟨[]⟩ exC2store 1).get 1 =
        some { componentType := 1,
               metadata := decoratorMetadata
                 { displayName := "Health", category := some "Gameplay" },
               properties := getAllPropertyMetadata exC2store 1 } ∧
      getComponentMetadata exC2store 2 =
        some (decoratorMetadata { displayName := "Sprite" }) ∧
      mapGet 2 exC2store.propertyMetadataMap = none ∧
      getAllPropertyMetadata exC2store 2 = [] :=
  ⟨by decide,
    (c2_register_builds_full_registration exC2store ⟨[]⟩ 1
      (decoratorMetadata { displayName := "Health", category := some "Gameplay" })
      (by decide)).1,
    by decide, by decide,
    (c2_register_builds_full_registration exC2store ⟨[]⟩ 2
      (decoratorMetadata { displayName := "Sprite" }) (by decide)).2 (by decide)⟩

/-! ## Claim C9: clearAllMetadata empties only the enumerable set -/

/-- C9: `clearAllMetadata()` empties the enumerable declared-types set
(so `getAllRegisteredComponentTypes()` becomes empty) while the per-type
component metadata associations are untouched: a previously declared type
still has its metadata and descriptor, and the property associations are
also unchanged. -/
theorem c9_clearAllMetadata_spares_weak_maps (st : MetadataStore) (t : ComponentType)
    (h : hasComponentMetadata st t = true) :
    getAllRegisteredComponentTypes (clearAllMetadata st) = [] ∧
      hasComponentMetadata (clearAllMetadata st) t = true ∧
      getComponentMetadata (clearAllMetadata st) t = getComponentMetadata st t ∧
      getAllPropertyMetadata (clearAllMetadata st) t = getAllPropertyMetadata st t :=
  ⟨rfl, h, rfl, rfl⟩

theorem c9_clearAllMetadata_spares_weak_maps_witness :
    hasComponentMetadata exC9store 1 = true ∧
      (getAllRegisteredComponentTypes (clearAllMetadata exC9store) = [] ∧
        hasComponentMetadata (clearAllMetadata exC9store) 1 = true ∧
        getComponentMetadata (clearAllMetadata exC9store) 1 =
          getComponentMetadata exC9store 1 ∧
        getAllPropertyMetadata (clearAllMetadata exC9store) 1 =
          getAllPropertyMetadata exC9store 1) :=
  ⟨by decide, c9_clearAllMetadata_spares_weak_maps exC9store 1 (by decide)⟩

/-! ## Claim C10: statistics counts agree with the query operations -/

/-- C10: `getStatistics().totalComponents` equals the length of
`getAll()` and `getStatistics().addableComponents` equals the length of
`getAddable()`, for every registry state. -/
theorem c10_statistics_agree_with_queries (registry : EditorComponentRegistry) :
    registry.getStatistics.totalComponents = registry.getAll.length ∧
      registry.getStatistics.addableComponents = registry.getAddable.length := by
  refine ⟨?_, ?_⟩
  · simp [EditorComponentRegistry.getStatistics, EditorComponentRegistry.getAll]
  · rw [EditorComponentRegistry.getStatistics]
    simp only [EditorComponentRegistry.getAddable]
    rw [statistics_foldl_snd, List.countP_eq_length_filter]
    simp

/-! ## Sorting a group preserves its members -/

theorem mem_sorted_group {α : Type} (key : α → Int) (k : String)
    (g : List (String × List α)) (x : α)
    (hx : x ∈ (recordGet k g).getD []) :
    x ∈ (recordGet k (g.map fun p => (p.1, insertionSortKey key p.2))).getD [] := by
  rw [recordGet_map]
  rcases h : recordGet k g with _ | xs
  · rw [h] at hx
    simp at hx
  · rw [h] at hx
    simpa using (perm_insertionSortKey key xs).mem_iff.mpr hx

/-! ## Claim C3: getByCategory filters but does not sort -/

/-- C3 counterexample: with two `"Physics"` components registered in the
order (order 2, order 1), `getByCategory("Physics")` returns them in
registration order — the output is not sorted by `order` ascending, so
the sortedness part of the claim is false. -/
theorem c3_getByCategory_not_sorted_counterexample :
    (exC3registry.getByCategory "Physics").map (fun r => r.metadata.order) =
        [some 2, some 1] ∧
      ¬ List.Pairwise
        (fun a b : ComponentRegistration =>
          orderOr999 a.metadata.order ≤ orderOr999 b.metadata.order)
        (exC3registry.getByCategory "Physics") := by
  decide

/-- C3 amended: `getByCategory(c)` returns exactly the subsequence of
`getAll()` whose `metadata.category` is strictly equal to `c`, in the
stored registration order; it performs no re-sorting by `order`. -/
theorem c3_getByCategory_exact_filter (registry : EditorComponentRegistry)
    (c : String) (r : ComponentRegistration) :
    (registry.getByCategory c).Sublist registry.getAll ∧
      (r ∈ registry.getByCategory c ↔
        r ∈ registry.getAll ∧ r.metadata.category = some c) := by
  refine ⟨List.filter_sublist _, ?_⟩
  simp [EditorComponentRegistry.getByCategory, List.mem_filter]

/-! ## Claim C4: the default group keys -/

/-- C4 counterexample: a registration with no category is not grouped
under the key `"Uncategorized"`, and a property with no category is not
grouped under the key `"General"`; the helpers use the bilingual labels
instead. -/
theorem c4_default_group_keys_counterexample :
    exC4registry.getAll.map (fun r => r.metadata.category) = [none] ∧
      recordGet "Uncategorized" (ComponentUtils.getComponentsByCategory exC4registry) =
        none ∧
      recordGet "Uncategorized 未分类"
        (ComponentUtils.getComponentsByCategory exC4registry) ≠ none ∧
      (ComponentUtils.getRegisteredPropertyMetadata exC4registry 1).map
        (fun e => e.2.category) = [none] ∧
      recordGet "General" (ComponentUtils.getPropertiesByCategory exC4registry 1) =
        none ∧
      recordGet "General 通用"
        (ComponentUtils.getPropertiesByCategory exC4registry 1) ≠ none := by
  decide

/-- C4 amended: the component-grouping helper places each Registration
whose `metadata.category` is absent under the exact group key
`'Uncategorized 未分类'`, and the property-grouping helper places each
property whose `category` is absent under the exact group key
`'General 通用'`; those bilingual strings are the user-facing default
group keys. -/
theorem c4_default_group_keys_amended (registry : EditorComponentRegistry)
    (t : ComponentType) (r : ComponentRegistration)
    (entry : String × PropertyMetadata) :
    (r ∈ registry.getAll → r.metadata.category = none →
      r ∈ (recordGet "Uncategorized 未分类"
        (ComponentUtils.getComponentsByCategory registry)).getD []) ∧
      (entry ∈ ComponentUtils.getRegisteredPropertyMetadata registry t →
        entry.2.category = none →
        entry ∈ (recordGet "General 通用"
          (ComponentUtils.getPropertiesByCategory registry t)).getD []) := by
  constructor
  · intro hr hcat
    unfold ComponentUtils.getComponentsByCategory
    apply mem_sorted_group
    unfold ComponentUtils.componentGroupsRaw
    have hmem := mem_recordGet_foldl_push
      (fun reg : ComponentRegistration =>
        stringOrDefault "Uncategorized 未分类" reg.metadata.category)
      r registry.getAll [] hr
    simp only [hcat, stringOrDefault] at hmem
    exact hmem
  · intro he hcat
    unfold ComponentUtils.getPropertiesByCategory
    apply mem_sorted_group
    unfold ComponentUtils.propertyGroupsRaw
    have hmem := mem_recordGet_foldl_push
      (fun e : String × PropertyMetadata => stringOrDefault "General 通用" e.2.category)
      entry (ComponentUtils.getRegisteredPropertyMetadata registry t) [] he
    simp only [hcat, stringOrDefault] at hmem
    exact hmem

theorem c4_default_group_keys_amended_witness :
    exC4reg1 ∈ exC4registry.getAll ∧ exC4reg1.metadata.category = none ∧
      exC4entry ∈ ComponentUtils.getRegisteredPropertyMetadata exC4registry 1 ∧
      exC4entry.2.category = none ∧
      exC4reg1 ∈ (recordGet "Uncategorized 未分类"
        (ComponentUtils.getComponentsByCategory exC4registry)).getD [] ∧
      exC4entry ∈ (recordGet "General 通用"
        (ComponentUtils.getPropertiesByCategory exC4registry 1)).getD [] :=
  ⟨by decide, by decide, by decide, by decide,
    (c4_default_group_keys_amended exC4registry 1 exC4reg1 exC4entry).1
      (by decide) (by decide),
    (c4_default_group_keys_amended exC4registry 1 exC4reg1 exC4entry).2
      (by decide) (by decide)⟩

/-! ## Claim C5: how the helper sorts treat the order field -/

/-- C5 counterexample: in `getAvailableComponentTypes()` the entry with
explicit `order` 1000 sorts after the entry with no `order` (whose
effective key is 999), and in the property grouping the entry with
explicit `order` 0 sorts after the earlier entry with no `order` (0 is
falsy, so `order || 999` also yields 999 for it) — so it is false that
every entry with an explicit order sorts before every entry without
one. -/
theorem c5_order_sort_counterexample :
    (ComponentUtils.getAvailableComponentTypes exC5registry).map
        (fun p => p.2.metadata.order) = [none, some 1000] ∧
      ¬ (∀ i j : Fin (ComponentUtils.getAvailableComponentTypes exC5registry).length,
          (((ComponentUtils.getAvailableComponentTypes exC5registry).get i).2.metadata.order).isSome
              = true →
          ((ComponentUtils.getAvailableComponentTypes exC5registry).get j).2.metadata.order
              = none →
          (i : Nat) < (j : Nat)) ∧
      (recordGet "General 通用"
          (ComponentUtils.getPropertiesByCategory exC5registry 1)).map
        (fun l => l.map fun e => (e.1, e.2.order)) =
        some [("mp", none), ("hp", some 0)] := by
  refine ⟨by decide, ?_, by decide⟩
  decide

/-- C5 amended: every sorted output of the query helpers is the stable
ascending sort by effective order, where the effective order of an entry
is its declared `order` when that is present and non-zero, and 999 when
the `order` is absent or zero; entries sharing the same effective order
(including defaulted ones) retain their relative prior order, witnessed
by the per-key filter of each sorted output agreeing with the per-key
filter of its unsorted source. -/
theorem c5_stable_sort_by_effective_order_amended
    (registry : EditorComponentRegistry) (t : ComponentType) (k : Int)
    (gC gP : String) (lC : List ComponentRegistration)
    (lP : List (String × PropertyMetadata)) :
    List.Pairwise
        (fun a b : ComponentType × ComponentRegistration =>
          ComponentUtils.effectiveOrder a.2.metadata.order ≤
            ComponentUtils.effectiveOrder b.2.metadata.order)
        (ComponentUtils.getAvailableComponentTypes registry) ∧
      (ComponentUtils.getAvailableComponentTypes registry).filter
          (fun p => ComponentUtils.effectiveOrder p.2.metadata.order == k) =
        (registry.getAddable.map fun r => (r.componentType, r)).filter
          (fun p => ComponentUtils.effectiveOrder p.2.metadata.order == k) ∧
      (recordGet gC (ComponentUtils.getComponentsByCategory registry) = some lC →
        List.Pairwise
            (fun a b : ComponentRegistration =>
              ComponentUtils.effectiveOrder a.metadata.order ≤
                ComponentUtils.effectiveOrder b.metadata.order) lC ∧
          lC.filter (fun r => ComponentUtils.effectiveOrder r.metadata.order == k) =
            ((recordGet gC (ComponentUtils.componentGroupsRaw registry)).getD []).filter
              (fun r => ComponentUtils.effectiveOrder r.metadata.order == k)) ∧
      (recordGet gP (ComponentUtils.getPropertiesByCategory registry t) = some lP →
        List.Pairwise
            (fun a b : String × PropertyMetadata =>
              ComponentUtils.effectiveOrder a.2.order ≤
                ComponentUtils.effectiveOrder b.2.order) lP ∧
          lP.filter (fun e => ComponentUtils.effectiveOrder e.2.order == k) =
            ((recordGet gP (ComponentUtils.propertyGroupsRaw registry t)).getD []).filter
              (fun e => ComponentUtils.effectiveOrder e.2.order == k)) := by
  refine ⟨?_, ?_, ?_, ?_⟩
  · exact pairwise_insertionSortKey _ _
  · exact filter_insertionSortKey _ _ _
  · intro h
    rw [ComponentUtils.getComponentsByCategory,
      recordGet_map (insertionSortKey fun r => ComponentUtils.effectiveOrder r.metadata.order)
        gC (ComponentUtils.componentGroupsRaw registry)] at h
    rcases hr : recordGet gC (ComponentUtils.componentGroupsRaw registry) with _ | xs
    · rw [hr] at h
      simp at h
    · rw [hr] at h
      simp only [Option.map_some'] at h
      have h' := Option.some.inj h
      subst h'
      refine ⟨pairwise_insertionSortKey _ _, ?_⟩
      simp only [Option.getD_some]
      exact filter_insertionSortKey _ _ _
  · intro h
    rw [ComponentUtils.getPropertiesByCategory,
      recordGet_map (insertionSortKey fun e => ComponentUtils.effectiveOrder e.2.order)
        gP (ComponentUtils.propertyGroupsRaw registry t)] at h
    rcases hr : recordGet gP (ComponentUtils.propertyGroupsRaw registry t) with _ | xs
    · rw [hr] at h
      simp at h
    · rw [hr] at h
      simp only [Option.map_some'] at h
      have h' := Option.some.inj h
      subst h'
      refine ⟨pairwise_insertionSortKey _ _, ?_⟩
      simp only [Option.getD_some]
      exact filter_insertionSortKey _ _ _

theorem c5_stable_sort_by_effective_order_amended_witness :
    recordGet "Uncategorized 未分类"
        (ComponentUtils.getComponentsByCategory exC5registry) = some exC5groupC ∧
      recordGet "General 通用"
        (ComponentUtils.getPropertiesByCategory exC5registry 1) = some exC5groupP ∧
      List.Pairwise
        (fun a b : ComponentType × ComponentRegistration =>
          ComponentUtils.effectiveOrder a.2.metadata.order ≤
            ComponentUtils.effectiveOrder b.2.metadata.order)
        (ComponentUtils.getAvailableComponentTypes exC5registry) ∧
      (ComponentUtils.getAvailableComponentTypes exC5registry).filter
          (fun p => ComponentUtils.effectiveOrder p.2.metadata.order == 999) =
        (exC5registry.getAddable.map fun r => (r.componentType, r)).filter
          (fun p => ComponentUtils.effectiveOrder p.2.metadata.order == 999) ∧
      (List.Pairwise
          (fun a b : ComponentRegistration =>
            ComponentUtils.effectiveOrder a.metadata.order ≤
              ComponentUtils.effectiveOrder b.metadata.order) exC5groupC ∧
        exC5groupC.filter
            (fun r => ComponentUtils.effectiveOrder r.metadata.order == 999) =
          ((recordGet "Uncategorized 未分类"
              (ComponentUtils.componentGroupsRaw exC5registry)).getD []).filter
            (fun r => ComponentUtils.effectiveOrder r.metadata.order == 999)) ∧
      (List.Pairwise
          (fun a b : String × PropertyMetadata =>
            ComponentUtils.effectiveOrder a.2.order ≤
              ComponentUtils.effectiveOrder b.2.order) exC5groupP ∧
        exC5groupP.filter
            (fun e => ComponentUtils.effectiveOrder e.2.order == 999) =
          ((recordGet "General 通用"
              (ComponentUtils.propertyGroupsRaw exC5registry 1)).getD []).filter
            (fun e => ComponentUtils.effectiveOrder e.2.order == 999)) :=
  ⟨by decide, by decide,
    (c5_stable_sort_by_effective_order_amended exC5registry 1 999
      "Uncategorized 未分类" "General 通用" exC5groupC exC5groupP).1,
    (c5_stable_sort_by_effective_order_amended exC5registry 1 999
      "Uncategorized 未分类" "General 通用" exC5groupC exC5groupP).2.1,
    (c5_stable_sort_by_effective_order_amended exC5registry 1 999
      "Uncategorized 未分类" "General 通用" exC5groupC exC5groupP).2.2.1 (by decide),
    (c5_stable_sort_by_effective_order_amended exC5registry 1 999
      "Uncategorized 未分类" "General 通用" exC5groupC exC5groupP).2.2.2 (by decide)⟩

/-! ## Claim C6: getAddable and the addable default -/

theorem snd_mem_map_mapSet {κ ν : Type} [DecidableEq κ] (k : κ) (v : ν) :
    ∀ m : List (κ × ν), v ∈ (mapSet k v m).map Prod.snd
  | [] => by simp [mapSet]
  | (k', v') :: rest => by
    by_cases h : k' = k
    · simp [mapSet, h]
    · simp only [mapSet, if_neg h, List.map_cons, List.mem_cons]
      exact Or.inr (snd_mem_map_mapSet k v rest)

/-- C6: `getAddable()` is exactly the subsequence of `getAll()` whose
`metadata.addable` is not strictly `false`; the decorator turns an
omitted `addable` into `true` (so such a component is included after
registration) and stores `false` exactly when `addable: false` was
explicitly declared. -/
theorem c6_getAddable_excludes_only_explicit_false
    (registry : EditorComponentRegistry) (r : ComponentRegistration)
    (options : ComponentOptions) (t : ComponentType) (st : MetadataStore) :
    registry.getAddable.Sublist registry.getAll ∧
      (r ∈ registry.getAddable ↔
        r ∈ registry.getAll ∧ r.metadata.addable ≠ some false) ∧
      (options.addable = none → (decoratorMetadata options).addable = some true) ∧
      ((decoratorMetadata options).addable = some false ↔
        options.addable = some false) ∧
      (options.addable = none →
        ({ componentType := t
           metadata := decoratorMetadata options
           properties := getAllPropertyMetadata (componentDecorator options t st) t } :
            ComponentRegistration) ∈
          (registry.register (componentDecorator options t st) t).getAddable) := by
  refine ⟨List.filter_sublist _, ?_, ?_, ?_, ?_⟩
  · simp [EditorComponentRegistry.getAddable, List.mem_filter]
  · intro h
    simp [decoratorMetadata, h]
  · cases hopt : options.addable with
    | none => simp [decoratorMetadata, hopt]
    | some b => cases b <;> simp [decoratorMetadata, hopt]
  · intro hnone
    have hmeta : getComponentMetadata (componentDecorator options t st) t =
        some (decoratorMetadata options) :=
      mapGet_mapSet_self t (decoratorMetadata options) st.componentMetadataMap
    simp only [EditorComponentRegistry.register, hmeta]
    simp only [EditorComponentRegistry.getAddable, EditorComponentRegistry.getAll]
    rw [List.mem_filter]
    refine ⟨snd_mem_map_mapSet t _ registry.registrations, ?_⟩
    simp [decoratorMetadata, hnone]

theorem c6_getAddable_excludes_only_explicit_false_witness :
    exC6reg2 ∈ exC6registry.getAll ∧ exC6reg2 ∉ exC6registry.getAddable ∧
      (exC6reg2 ∈ exC6registry.getAddable ↔
        exC6reg2 ∈ exC6registry.getAll ∧ exC6reg2.metadata.addable ≠ some false) ∧
      (decoratorMetadata { displayName := "Shown" }).addable = some true ∧
      ((decoratorMetadata
          { displayName := "Hidden", addable := some false }).addable = some false ↔
        ({ displayName := "Hidden", addable := some false } :
          ComponentOptions).addable = some false) ∧
      ({ componentType := 5
         metadata := decoratorMetadata { displayName := "Shown" }
         properties :=
           getAllPropertyMetadata (componentDecorator { displayName := "Shown" } 5 {}) 5 } :
          ComponentRegistration) ∈
        (EditorComponentRegistry.register ⟨[]⟩
          (componentDecorator { displayName := "Shown" } 5 {}) 5).getAddable :=
  ⟨by decide, by decide,
    (c6_getAddable_excludes_only_explicit_false exC6registry exC6reg2
      { displayName := "Shown" } 5 {}).2.1,
    (c6_getAddable_excludes_only_explicit_false exC6registry exC6reg2
      { displayName := "Shown" } 5 {}).2.2.1 (by decide),
    (c6_getAddable_excludes_only_explicit_false exC6registry exC6reg2
      { displayName := "Hidden", addable := some false } 5 {}).2.2.2.1,
    (c6_getAddable_excludes_only_explicit_false ⟨[]⟩ exC6reg2
      { displayName := "Shown" } 5 {}).2.2.2.2 (by decide)⟩

/-! ## Claim C7: the can-remove / can-add predicates default to true -/

/-- C7: `canRemoveComponent` and `canAddComponent` are `true` for an
unregistered type and for a registered type whose corresponding flag is
not strictly `false`; each returns `false` only when the registered
metadata carries the corresponding flag strictly equal to `false`, which
the decorator produces exactly for an explicit `removable: false` /
`addable: false` declaration. -/
theorem c7_can_predicates_default_true (registry : EditorComponentRegistry)
    (t : ComponentType) (options : ComponentOptions) :
    (registry.has t = false →
      ComponentUtils.canRemoveComponent registry t = true ∧
        ComponentUtils.canAddComponent registry t = true) ∧
      (∀ r, registry.get t = some r → r.metadata.removable ≠ some false →
        ComponentUtils.canRemoveComponent registry t = true) ∧
      (∀ r, registry.get t = some r → r.metadata.addable ≠ some false →
        ComponentUtils.canAddComponent registry t = true) ∧
      (ComponentUtils.canRemoveComponent registry t = false →
        (registry.get t).map (fun r => r.metadata.removable) = some (some false)) ∧
      (ComponentUtils.canAddComponent registry t = false →
        (registry.get t).map (fun r => r.metadata.addable) = some (some false)) ∧
      ((decoratorMetadata options).removable = some false ↔
        options.removable = some false) := by
  refine ⟨?_, ?_, ?_, ?_, ?_, ?_⟩
  · intro h
    rcases e : mapGet t registry.registrations with _ | v
    · constructor <;>
        simp [ComponentUtils.canRemoveComponent, ComponentUtils.canAddComponent,
          ComponentUtils.getComponentRegistration, EditorComponentRegistry.get, e]
    · rw [EditorComponentRegistry.has, e] at h
      simp at h
  · intro r hr hflag
    simp [ComponentUtils.canRemoveComponent, ComponentUtils.getComponentRegistration,
      EditorComponentRegistry.get] at hr ⊢
    rw [hr]
    simpa using hflag
  · intro r hr hflag
    simp [ComponentUtils.canAddComponent, ComponentUtils.getComponentRegistration,
      EditorComponentRegistry.get] at hr ⊢
    rw [hr]
    simpa using hflag
  · intro h
    rcases e : registry.get t with _ | r
    · rw [ComponentUtils.canRemoveComponent, ComponentUtils.getComponentRegistration,
        e] at h
      simp at h
    · rw [ComponentUtils.canRemoveComponent, ComponentUtils.getComponentRegistration,
        e] at h
      simp at h
      simp [e, h]
  · intro h
    rcases e : registry.get t with _ | r
    · rw [ComponentUtils.canAddComponent, ComponentUtils.getComponentRegistration,
        e] at h
      simp at h
    · rw [ComponentUtils.canAddComponent, ComponentUtils.getComponentRegistration,
        e] at h
      simp at h
      simp [e, h]
  · cases hopt : options.removable with
    | none => simp [decoratorMetadata, hopt]
    | some b => cases b <;> simp [decoratorMetadata, hopt]

theorem c7_can_predicates_default_true_witness :
    exC7registry.has 3 = false ∧
      (ComponentUtils.canRemoveComponent exC7registry 3 = true ∧
        ComponentUtils.canAddComponent exC7registry 3 = true) ∧
      exC7registry.get 1 = some exC7reg1 ∧
      ComponentUtils.canRemoveComponent exC7registry 1 = true ∧
      ComponentUtils.canAddComponent exC7registry 1 = true ∧
      ComponentUtils.canRemoveComponent exC7registry 2 = false ∧
      (exC7registry.get 2).map (fun r => r.metadata.removable) = some (some false) ∧
      (exC7registry.get 2).map (fun r => r.metadata.addable) = some (some false) ∧
      ((decoratorMetadata
          { displayName := "Locked", removable := some false,
            addable := some false }).removable = some false ↔
        ({ displayName := "Locked", removable := some false,
           addable := some false } : ComponentOptions).removable = some false) :=
  ⟨by decide,
    (c7_can_predicates_default_true exC7registry 3 { displayName := "x" }).1 (by decide),
    by decide,
    (c7_can_predicates_default_true exC7registry 1 { displayName := "x" }).2.1
      exC7reg1 (by decide) (by decide),
    (c7_can_predicates_default_true exC7registry 1 { displayName := "x" }).2.2.1
      exC7reg1 (by decide) (by decide),
    by decide,
    (c7_can_predicates_default_true exC7registry 2 { displayName := "x" }).2.2.2.1
      (by decide),
    (c7_can_predicates_default_true exC7registry 2 { displayName := "x" }).2.2.2.2.1
      (by decide),
    (c7_can_predicates_default_true exC7registry 2
      { displayName := "Locked", removable := some false,
        addable := some false }).2.2.2.2.2⟩

/-! ## Claim C8: what getStatistics tallies -/

/-- C8 counterexample: a registration whose declared category is the
empty string has a category, yet `getStatistics()` creates no entry for
it — the truthiness test `if (metadata.category)` also excludes the
empty string, not only absent categories. -/
theorem c8_statistics_counterexample :
    exC8registry.getStatistics.totalComponents = 1 ∧
      exC8registry.getAll.map (fun r => r.metadata.category) = [some ""] ∧
      exC8registry.getStatistics.categorizedComponents = [] ∧
      recordGet "" exC8registry.getStatistics.categorizedComponents = none := by
  decide

/-- C8 amended: `getStatistics()` reports `totalComponents` equal to the
number of stored Registrations and `addableComponents` equal to the
number whose `metadata.addable` is not strictly `false`; its
`categorizedComponents` maps every non-empty category string to the
number of Registrations carrying exactly that category, while
Registrations whose category is absent or the empty string are excluded
from the tally entirely (no default label is substituted and no
empty-string entry is ever created). -/
theorem c8_statistics_amended (registry : EditorComponentRegistry) (c : String) :
    registry.getStatistics.totalComponents = registry.getAll.length ∧
      registry.getStatistics.addableComponents =
        (registry.getAll.filter fun r => r.metadata.addable ≠ some false).length ∧
      (c ≠ "" →
        (recordGet c registry.getStatistics.categorizedComponents).getD 0 =
          registry.getAll.countP (fun r => r.metadata.category == some c)) ∧
      recordGet "" registry.getStatistics.categorizedComponents = none := by
  refine ⟨?_, ?_, ?_, ?_⟩
  · simp [EditorComponentRegistry.getStatistics, EditorComponentRegistry.getAll]
  · rw [EditorComponentRegistry.getStatistics]
    simp only
    rw [statistics_foldl_snd, List.countP_eq_length_filter]
    simp
  · intro hc
    rw [EditorComponentRegistry.getStatistics]
    simp only
    rw [statistics_foldl_get c hc]
    simp [recordGet]
  · rw [EditorComponentRegistry.getStatistics]
    simp only
    rw [statistics_foldl_get_empty]
    simp [recordGet]

theorem c8_statistics_amended_witness :
    ("Audio" : String) ≠ "" ∧
      exC8Wregistry.getStatistics.totalComponents = exC8Wregistry.getAll.length ∧
      exC8Wregistry.getStatistics.addableComponents =
        (exC8Wregistry.getAll.filter fun r => r.metadata.addable ≠ some false).length ∧
      (recordGet "Audio" exC8Wregistry.getStatistics.categorizedComponents).getD 0 =
        exC8Wregistry.getAll.countP (fun r => r.metadata.category == some "Audio") ∧
      recordGet "" exC8Wregistry.getStatistics.categorizedComponents = none ∧
      exC8Wregistry.getStatistics.totalComponents = 3 ∧
      (recordGet "Audio" exC8Wregistry.getStatistics.categorizedComponents).getD 0 = 2 :=
  ⟨by decide,
    (c8_statistics_amended exC8Wregistry "Audio").1,
    (c8_statistics_amended exC8Wregistry "Audio").2.1,
    (c8_statistics_amended exC8Wregistry "Audio").2.2.1 (by decide),
    (c8_statistics_amended exC8Wregistry "Audio").2.2.2,
    by decide, by decide⟩
